import Mathlib

/-!
Shallow embedding of the conversion pipeline of `cngi/conversion/convert_image.py`
(cngi_prototype).  Python strings are modelled as `List Char` (so that every
operation evaluates inside the kernel), Python dictionaries as insertion-ordered
association lists, numpy arrays as shape-plus-index-function records, and the
side-effecting driver as an explicit effect trace.  Line numbers in doc
comments refer to `src/cngi/conversion/convert_image.py`.
-/

namespace ConvertImage

/-- Python `str`, modelled as its character list. -/
abbrev PyStr := List Char

/-- Python single-character `s.split(c)`: split on every occurrence of `c`;
the empty string yields `[""]`, a separator at either end yields empty parts. -/
def splitOnChar (c : Char) : PyStr → List PyStr
  | [] => [[]]
  | x :: xs =>
    let r := splitOnChar c xs
    if x = c then [] :: r
    else (x :: r.headD []) :: r.tail

/-- Boolean list-prefix test. -/
def listIsPrefix : PyStr → PyStr → Bool
  | [], _ => true
  | _ :: _, [] => false
  | a :: as, b :: bs => a = b && listIsPrefix as bs

/-- Python substring membership `sep in s`. -/
def containsSub (sep : PyStr) : PyStr → Bool
  | [] => listIsPrefix sep []
  | s@(_ :: rest) => listIsPrefix sep s || containsSub sep rest

/-- Characters removed by Python `str.strip()`. -/
def isPySpace (c : Char) : Bool :=
  c = ' ' || c = '\t' || c = '\n' || c = '\r' || c = '\x0b' || c = '\x0c'

/-- Python `s.strip()`: drop whitespace from both ends. -/
def pyStrip (s : PyStr) : PyStr :=
  ((s.dropWhile isPySpace).reverse.dropWhile isPySpace).reverse

/-- Python `s.lower()` (ASCII is all that occurs in the summaries). -/
def pyLower (s : PyStr) : PyStr := s.map Char.toLower

/-- Python `s.replace(' ', '_')`: a single-character replacement is a map. -/
def spacesToUnderscores (s : PyStr) : PyStr :=
  s.map (fun c => if c = ' ' then '_' else c)

/-- Python dict assignment `d[k] = v`: replace the value of an existing key in
place (keeping its position), otherwise append the new pair at the end. -/
def dictSet {α β : Type} [DecidableEq α] : List (α × β) → α → β → List (α × β)
  | [], k, v => [(k, v)]
  | p :: d, k, v => if p.1 = k then (k, v) :: d else p :: dictSet d k v

/-- Python dict lookup `d.get(k)`: first pair with the given key. -/
def dictGet {α β : Type} [DecidableEq α] (k : α) : List (α × β) → Option β
  | [] => none
  | p :: d => if p.1 = k then some p.2 else dictGet k d

/-- The separator `': '` looked for in message lines (line 133). -/
def colonSpace : PyStr := ": ".toList

/-- Fixed known-redundant labels dropped from parsed messages (line 131). -/
def msgOmits : List PyStr :=
  ["image_name".toList, "image_type".toList, "image_quantity".toList,
   "pixel_mask(s)".toList, "region(s)".toList, "image_units".toList]

/-- Lines 132-135: one free-text message parsed into (label, value) pairs.
`msg.lower()` is split on newlines, only lines containing a colon-space kept
(`': ' in kk`); each kept line is split on EVERY colon (`kk.split(':')`) and
the first two fields become the pair (`kk[0]`, `kk[1]`); the label is stripped
and its spaces replaced by underscores, the value stripped; pairs whose label
is in `msgOmits` are dropped. -/
def parseMsg (msg : PyStr) : List (PyStr × PyStr) :=
  let lines := (splitOnChar '\n' (pyLower msg)).filter
    (fun kk => containsSub colonSpace kk)
  let pairs := lines.map (fun kk =>
    let parts := splitOnChar ':' kk
    (spacesToUnderscores (pyStrip (parts.headD [])), pyStrip (parts.getD 1 [])))
  pairs.filter (fun ll => ll.1 ∉ msgOmits)

/-- Lines 132-136: merge every message's parsed pairs into the attribute dict,
messages in order; `tm['attrs'].update(dict(line))` sets each pair in order,
so a later pair for a key overrides an earlier one. -/
def parseMessages (attrs : List (PyStr × PyStr)) (msgs : List PyStr) :
    List (PyStr × PyStr) :=
  msgs.foldl (fun a msg => (parseMsg msg).foldl (fun d p => dictSet d p.1 p.2) a) attrs

/-- The claim's reading of the message parser, for comparison: split each
colon-containing line on the FIRST colon only (the value is everything after
the first colon) and lower-case only the label. -/
def claimParseMsg (msg : PyStr) : List (PyStr × PyStr) :=
  let lines := (splitOnChar '\n' msg).filter (fun kk => containsSub ":".toList kk)
  let pairs := lines.map (fun kk =>
    let parts := splitOnChar ':' kk
    (spacesToUnderscores (pyStrip (pyLower (parts.headD []))),
     pyStrip (List.intercalate ":".toList (parts.drop 1))))
  pairs.filter (fun ll => ll.1 ∉ msgOmits)

/-- Merge of `claimParseMsg` pairs, later over earlier, as the claim reads. -/
def claimParseMessages (attrs : List (PyStr × PyStr)) (msgs : List PyStr) :
    List (PyStr × PyStr) :=
  msgs.foldl (fun a msg => (claimParseMsg msg).foldl (fun d p => dictSet d p.1 p.2) a) attrs

/-- One line of a message handled as an optional pair: kept only when it
contains a colon-space; label = first colon-field stripped with spaces as
underscores, value = second colon-field stripped; omitted labels dropped. -/
def amendedLinePair (kk : PyStr) : Option (PyStr × PyStr) :=
  if containsSub colonSpace kk then
    let parts := splitOnChar ':' kk
    let label := spacesToUnderscores (pyStrip (parts.headD []))
    if label ∈ msgOmits then none else some (label, pyStrip (parts.getD 1 []))
  else none

/-- Amended parser: lower-case the whole message (labels AND values), split
into lines, keep each line's `amendedLinePair`. -/
def amendedParseMsg (msg : PyStr) : List (PyStr × PyStr) :=
  (splitOnChar '\n' (pyLower msg)).filterMap amendedLinePair

end ConvertImage

namespace ConvertImage

theorem dictGet_dictSet {α β : Type} [DecidableEq α] (d : List (α × β)) (k k' : α) (v : β) :
    dictGet k (dictSet d k' v) = if k' = k then some v else dictGet k d := by
  induction d with
  | nil => simp [dictSet, dictGet]
  | cons p t ih =>
    by_cases h1 : p.1 = k'
    · by_cases h2 : k' = k <;> simp [dictSet, dictGet, h1, h2]
    · by_cases h2 : p.1 = k
      · have hkk : ¬ (k' = k) := fun hh => h1 (h2.trans hh.symm)
        have hkk2 : ¬ (k = k') := fun hh => hkk hh.symm
        simp [dictSet, dictGet, h1, h2, hkk, hkk2]
      · simp [dictSet, dictGet, h1, h2, ih]

theorem dictGet_foldl_pairs {α β : Type} [DecidableEq α]
    (ps : List (α × β)) (attrs : List (α × β)) (k : α) :
    dictGet k (ps.foldl (fun d p => dictSet d p.1 p.2) attrs) =
      match ps.reverse.find? (fun p => decide (p.1 = k)) with
      | some p => some p.2
      | none => dictGet k attrs := by
  induction ps generalizing attrs with
  | nil => simp
  | cons p t ih =>
    simp only [List.foldl_cons, ih, List.reverse_cons, List.find?_append]
    cases hf : t.reverse.find? (fun p => decide (p.1 = k)) with
    | some q => simp [hf, Option.or]
    | none =>
      by_cases h : p.1 = k <;>
        simp [hf, Option.or, List.find?, h, dictGet_dictSet]

theorem parseMsg_eq_amended (msg : PyStr) : parseMsg msg = amendedParseMsg msg := by
  unfold parseMsg amendedParseMsg
  generalize splitOnChar '\n' (pyLower msg) = ls
  induction ls with
  | nil => rfl
  | cons kk t ih =>
    by_cases h : containsSub colonSpace kk = true
    · simp [List.filter_cons, List.filterMap_cons, amendedLinePair, h] at ih ⊢
      rw [ih]
      by_cases hc :
          spacesToUnderscores (pyStrip ((splitOnChar ':' kk).head?.getD [])) ∈ msgOmits <;>
        simp [hc]
    · simp [List.filter_cons, List.filterMap_cons, amendedLinePair, h] at ih ⊢
      rw [ih]

theorem parseMessages_eq_flat (attrs : List (PyStr × PyStr)) (msgs : List PyStr) :
    parseMessages attrs msgs =
      (msgs.flatMap parseMsg).foldl (fun d p => dictSet d p.1 p.2) attrs := by
  induction msgs generalizing attrs with
  | nil => rfl
  | cons m t ih =>
    simpa [parseMessages, List.flatMap_cons, List.foldl_append] using
      ih ((parseMsg m).foldl (fun d p => dictSet d p.1 p.2) attrs)

end ConvertImage

namespace ConvertImage

/-- C8 counterexample: on the message `"Key: 12:30"` the code's parser
(lines 131-136) yields the pair `("key", "12")` — the value is truncated at
the second colon — while the claim's split-on-first-colon reading yields
`("key", "12:30")`; so the Metadata Normalizer does not split each line on
the first colon as the claim states. -/
theorem C8_counterexample :
    parseMessages [] ["Key: 12:30".toList] = [("key".toList, "12".toList)] ∧
    claimParseMessages [] ["Key: 12:30".toList] = [("key".toList, "12:30".toList)] := by
  decide

/-- C8 amended: the Metadata Normalizer lower-cases the whole message (labels
AND values), keeps only lines containing a colon-space, splits each kept line
on every colon keeping the first two fields as the (label, value) pair (so the
value is truncated at a second colon), strips the label and replaces its spaces
by underscores, strips the value, drops omitted labels, and merges the pairs
into the attribute mapping with a later pair overriding an earlier one for the
same key. -/
theorem C8_parse_and_merge (attrs : List (PyStr × PyStr)) (msgs : List PyStr) (k : PyStr) :
    (∀ msg, parseMsg msg = amendedParseMsg msg) ∧
    dictGet k (parseMessages attrs msgs) =
      (match (msgs.flatMap amendedParseMsg).reverse.find? (fun p => decide (p.1 = k)) with
       | some p => some p.2
       | none => dictGet k attrs) := by
  refine ⟨parseMsg_eq_amended, ?_⟩
  have h1 : msgs.flatMap parseMsg = msgs.flatMap amendedParseMsg := by
    induction msgs with
    | nil => rfl
    | cons m t ih => simp [List.flatMap_cons, ih, parseMsg_eq_amended]
  rw [parseMessages_eq_flat attrs msgs]
  rw [h1]
  rw [dictGet_foldl_pairs (msgs.flatMap amendedParseMsg) attrs k]
  cases hf : List.find? (fun p => decide (p.1 = k)) (msgs.flatMap amendedParseMsg).reverse <;>
    simp [hf]

end ConvertImage

namespace ConvertImage

/-- Data of one output variable: integer pixel values (the dtype carrier) or
booleans after a cast, together with its dimension names. -/
inductive VarData where
  | ints (vals : List Int) (dims : List String)
  | bools (vals : List Bool) (dims : List String)
deriving DecidableEq

/-- Lines 171-178: one artifact's pixel chunk shaped into a named variable.
`fits` is renamed `image` (line 172); a `mask` artifact is cast to boolean and
stored under the fixed name `deconvolve` (line 174); `sumwt` keeps its name
with dims `['pol', 'chan']` (line 176); any other artifact keeps its own type
name and the full dimension set (line 178). -/
def shapeArtifact (imtype : String) (imchunk : List Int) (dims : List String) :
    String × VarData :=
  let imtype := if imtype = "fits" then "image" else imtype
  if imtype = "mask" then ("deconvolve", .bools (imchunk.map (fun v => decide (v ≠ 0))) dims)
  else if imtype = "sumwt" then (imtype, .ints imchunk ["pol", "chan"])
  else (imtype, .ints imchunk dims)

/-- C7: a `mask` artifact's chunk is stored under the fixed name `deconvolve`,
distinct from the source type name `mask`, as a boolean variable whose entries
are elementwise (source pixel value ≠ 0). -/
theorem C7_mask_shaping (imchunk : List Int) (dims : List String) :
    (shapeArtifact "mask" imchunk dims).1 = "deconvolve" ∧
    (shapeArtifact "mask" imchunk dims).1 ≠ "mask" ∧
    ∃ bs, (shapeArtifact "mask" imchunk dims).2 = VarData.bools bs dims ∧
      ∀ i : Nat, bs[i]? = (imchunk[i]?).map (fun v => decide (v ≠ 0)) := by
  refine ⟨rfl, by simp [shapeArtifact], imchunk.map (fun v => decide (v ≠ 0)), rfl, ?_⟩
  intro i
  simp

/-- A Python sequence of ints: a tuple is immutable, a list is mutable. -/
inductive PySeq where
  | tuple (xs : List Int)
  | list (xs : List Int)
deriving DecidableEq

/-- Values held by a Python sequence. -/
def PySeq.vals : PySeq → List Int
  | .tuple xs => xs
  | .list xs => xs

/-- Python `seq[i] = v`: in-place item assignment; a tuple raises TypeError. -/
def PySeq.setItem : PySeq → Nat → Int → Except String PySeq
  | .tuple _, _, _ => .error "TypeError: tuple object does not support item assignment"
  | .list xs, i, v => .ok (.list (xs.set i v))

/-- Line 159: `if chunk_shape[3] <= 0: chunk_shape[3] = dsize[chan_dim]` —
a sentinel in slot 3 is replaced by the full channel length by in-place
assignment into `chunk_shape`. -/
def applyChanSentinel (chunk_shape : PySeq) (nchan : Int) : Except String PySeq :=
  if chunk_shape.vals.getD 3 0 ≤ 0 then chunk_shape.setItem 3 nchan
  else .ok chunk_shape

/-- C9: with the documented 4-tuple chunk-shape and the sentinel -1 in every
slot, line 159 assigns into the tuple and raises TypeError; the same values
passed as a mutable list are honoured (slot 3 set to the channel length);
the default tuple `(-1, -1, 1, 1)` never triggers the assignment. -/
theorem C9_tuple_sentinel :
    applyChanSentinel (PySeq.tuple [-1, -1, -1, -1]) 5 =
      .error "TypeError: tuple object does not support item assignment" ∧
    applyChanSentinel (PySeq.list [-1, -1, -1, -1]) 5 = .ok (PySeq.list [-1, -1, -1, 5]) ∧
    applyChanSentinel (PySeq.tuple [-1, -1, 1, 1]) 5 = .ok (PySeq.tuple [-1, -1, 1, 1]) := by
  refine ⟨rfl, rfl, rfl⟩

end ConvertImage

namespace ConvertImage

/-- One candidate artifact as the scan loop of lines 91-150 sees it: its type
name (an entry of `imtypes`), whether `prefix + '.' + imtype` exists on disk
(line 92), its pixel shape (`IA.shape()` / `summary['shape']`, lines 95, 120
and 143), and the canonical attribute mapping the Metadata Normalizer computes
for it (lines 124-136), carried abstractly here since its content is settled
separately. -/
structure Artifact where
  imtype : String
  onDisk : Bool
  shape : List Nat
  attrs : List (PyStr × PyStr)
deriving DecidableEq

/-- Mutable state of the scan loop (lines 90-150): `meta` holds the reference
dsize and attrs, set once from the first opened artifact (lines 141-142);
`diftypes` accumulates incompatible types (line 144); `removed` the names
dropped from `imtypes` (lines 146 and 150).  Python's `for` iterates the
original list even though `imtypes` is rebound, so the final `imtypes` is the
original candidate list minus the removed names. -/
structure PartState where
  meta : Option (List Nat × List (PyStr × PyStr))
  diftypes : List String
  removed : List String
deriving DecidableEq

/-- One iteration of the scan loop for one candidate type (lines 92-150):
missing artifacts are dropped from `imtypes`; the first opened artifact
becomes the reference; a later artifact whose shape differs from the
reference is moved to `diftypes` and dropped, unless its type is `sumwt`
(line 143). -/
def partStep (s : PartState) (a : Artifact) : PartState :=
  if a.onDisk then
    match s.meta with
    | none => { s with meta := some (a.shape, a.attrs) }
    | some (rs, _) =>
      if a.shape ≠ rs ∧ a.imtype ≠ "sumwt" then
        { s with diftypes := s.diftypes ++ [a.imtype], removed := s.removed ++ [a.imtype] }
      else s
  else { s with removed := s.removed ++ [a.imtype] }

/-- Lines 91-150: the whole compatibility scan over the candidate list. -/
def partitionArtifacts (cands : List Artifact) : PartState :=
  cands.foldl partStep ⟨none, [], []⟩

/-- Line 152: the surviving `imtypes` after the scan — the original candidate
names minus the removed ones. -/
def compatibleTypes (cands : List Artifact) : List String :=
  (cands.map Artifact.imtype).filter (fun t => t ∉ (partitionArtifacts cands).removed)

/-- Line 189: the attribute mapping attached to every assembled dataset is
`meta['attrs']` — the reference artifact's attrs.  (`meta = dict(tm)` at line
142 shallow-copies; line 127 rebinds `tm['attrs']` to a fresh dict on each
later iteration, so the reference dict is never mutated afterwards.) -/
def outputAttrs (cands : List Artifact) : Option (List (PyStr × PyStr)) :=
  (partitionArtifacts cands).meta.map Prod.snd

/-- After the reference is set, an artifact is removed as incompatible when it
is on disk, its shape differs and it is not `sumwt` (line 143). -/
def badAfterRef (rs : List Nat) (c : Artifact) : Bool :=
  c.onDisk && (decide (c.shape ≠ rs) && decide (c.imtype ≠ "sumwt"))

/-- An artifact dropped from `imtypes` after the reference is set: either
missing (line 150) or incompatible (line 146). -/
def droppedAfterRef (rs : List Nat) (c : Artifact) : Bool :=
  !c.onDisk || badAfterRef rs c

theorem foldl_partStep_missing (l : List Artifact) (s : PartState)
    (h : ∀ c ∈ l, c.onDisk = false) :
    l.foldl partStep s =
      { s with removed := s.removed ++ l.map Artifact.imtype } := by
  induction l generalizing s with
  | nil => simp
  | cons c t ih =>
    have hc := h c (List.mem_cons_self c t)
    simp only [List.foldl_cons, List.map_cons]
    rw [show partStep s c = { s with removed := s.removed ++ [c.imtype] } by
      simp [partStep, hc]]
    rw [ih _ (fun d hd => h d (List.mem_cons_of_mem c hd))]
    simp

theorem foldl_partStep_ref (l : List Artifact) (rs : List Nat)
    (ra : List (PyStr × PyStr)) (d r : List String) :
    l.foldl partStep ⟨some (rs, ra), d, r⟩ =
      ⟨some (rs, ra),
       d ++ (l.filter (badAfterRef rs)).map Artifact.imtype,
       r ++ (l.filter (droppedAfterRef rs)).map Artifact.imtype⟩ := by
  induction l generalizing d r with
  | nil => simp
  | cons c t ih =>
    simp only [List.foldl_cons]
    by_cases hdisk : c.onDisk = true
    · by_cases hbad : c.shape ≠ rs ∧ c.imtype ≠ "sumwt"
      · rw [show partStep ⟨some (rs, ra), d, r⟩ c
            = ⟨some (rs, ra), d ++ [c.imtype], r ++ [c.imtype]⟩ by
          simp [partStep, hdisk, hbad]]
        rw [ih]
        have hb : badAfterRef rs c = true := by
          simp [badAfterRef, hdisk, hbad.1, hbad.2]
        have hd2 : droppedAfterRef rs c = true := by
          simp [droppedAfterRef, hb]
        simp [List.filter_cons, hb, hd2]
      · rw [show partStep ⟨some (rs, ra), d, r⟩ c = ⟨some (rs, ra), d, r⟩ by
          simp [partStep, hdisk, hbad]]
        rw [ih]
        have hb : badAfterRef rs c = false := by
          rcases Decidable.not_and_iff_or_not.mp hbad with h1 | h1 <;>
            simp [badAfterRef, decide_eq_true_eq] <;> tauto
        have hd2 : droppedAfterRef rs c = false := by
          simp [droppedAfterRef, hb, hdisk]
        simp [List.filter_cons, hb, hd2]
    · have hdisk2 : c.onDisk = false := by simpa using hdisk
      rw [show partStep ⟨some (rs, ra), d, r⟩ c
          = ⟨some (rs, ra), d, r ++ [c.imtype]⟩ by simp [partStep, hdisk2]]
      rw [ih]
      have hb : badAfterRef rs c = false := by simp [badAfterRef, hdisk2]
      have hd2 : droppedAfterRef rs c = true := by simp [droppedAfterRef, hdisk2]
      simp [List.filter_cons, hb, hd2]

theorem partitionArtifacts_eq (a : Artifact) (pre post : List Artifact)
    (hpre : ∀ c ∈ pre, c.onDisk = false) (ha : a.onDisk = true) :
    partitionArtifacts (pre ++ a :: post) =
      ⟨some (a.shape, a.attrs),
       (post.filter (badAfterRef a.shape)).map Artifact.imtype,
       pre.map Artifact.imtype ++
         (post.filter (droppedAfterRef a.shape)).map Artifact.imtype⟩ := by
  unfold partitionArtifacts
  rw [List.foldl_append, foldl_partStep_missing pre _ hpre]
  simp only [List.foldl_cons]
  rw [show partStep ⟨none, [], [] ++ pre.map Artifact.imtype⟩ a
      = ⟨some (a.shape, a.attrs), [], pre.map Artifact.imtype⟩ by
    simp [partStep, ha]]
  rw [foldl_partStep_ref]
  simp

end ConvertImage

namespace ConvertImage

/-- C10: the attribute mapping of the final output container equals the
canonical attrs of the reference (first successfully opened) artifact alone;
the attrs computed for every other artifact never reach the output. -/
theorem C10_output_attrs (cands : List Artifact) (a : Artifact) (rest : List Artifact)
    (hfirst : cands.filter (fun c => c.onDisk) = a :: rest) :
    outputAttrs cands = some a.attrs := by
  rcases List.filter_eq_cons_iff.mp hfirst with ⟨pre, post, hsplit, hpre, ha, hrest⟩
  subst hsplit
  rw [outputAttrs,
    partitionArtifacts_eq a pre post (fun c hc => by simpa using hpre c hc) ha]
  rfl

/-- Concrete reference artifact used by the witnesses. -/
def artRefA : Artifact :=
  ⟨"image", true, [4, 4, 1, 5], [("unit".toList, "jy/beam".toList)]⟩

/-- Concrete same-shape artifact used by the witnesses. -/
def artB : Artifact := ⟨"model", true, [4, 4, 1, 5], [("unit".toList, "other".toList)]⟩

/-- Concrete mismatched-shape artifact used by the witnesses. -/
def artC : Artifact := ⟨"psf", true, [8, 8, 1, 5], []⟩

/-- Concrete sum-of-weights artifact (legitimately different shape). -/
def artSumwt : Artifact := ⟨"sumwt", true, [1, 5], []⟩

/-- Concrete missing artifact (not on disk). -/
def artMissing : Artifact := ⟨"pb", false, [4, 4, 1, 5], []⟩

/-- C10 witness at a concrete artifact list. -/
theorem C10_output_attrs_witness :
    ([artMissing, artRefA, artB, artC].filter (fun c => c.onDisk)
       = artRefA :: [artB, artC]) ∧
    outputAttrs [artMissing, artRefA, artB, artC] = some artRefA.attrs :=
  ⟨by decide, C10_output_attrs [artMissing, artRefA, artB, artC] artRefA [artB, artC]
    (by decide)⟩

end ConvertImage

namespace ConvertImage

/-- C2: in the fixed candidate order, the first on-disk artifact establishes
the reference shape; the surviving compatible list consists exactly of the
on-disk artifacts whose shape equals the reference shape or whose type is
`sumwt` (in candidate order), and `diftypes` consists exactly of the on-disk
artifacts whose shape differs and whose type is not `sumwt`. -/
theorem C2_partition (cands : List Artifact) (a : Artifact) (rest : List Artifact)
    (hnd : (cands.map Artifact.imtype).Nodup)
    (hfirst : cands.filter (fun c => c.onDisk) = a :: rest) :
    (partitionArtifacts cands).meta.map Prod.fst = some a.shape ∧
    compatibleTypes cands =
      ((cands.filter (fun c => c.onDisk)).filter
        (fun c => decide (c.shape = a.shape) || decide (c.imtype = "sumwt"))).map
        Artifact.imtype ∧
    (partitionArtifacts cands).diftypes =
      ((cands.filter (fun c => c.onDisk)).filter
        (fun c => decide (c.shape ≠ a.shape) && decide (c.imtype ≠ "sumwt"))).map
        Artifact.imtype := by
  rcases List.filter_eq_cons_iff.mp hfirst with ⟨pre, post, hsplit, hpre0, ha, hrest⟩
  subst hsplit
  have hpre : ∀ c ∈ pre, c.onDisk = false := fun c hc => by simpa using hpre0 c hc
  have heq := partitionArtifacts_eq a pre post hpre ha
  have hnd2 : (pre.map Artifact.imtype ++
      a.imtype :: post.map Artifact.imtype).Nodup := by simpa using hnd
  rcases List.nodup_append.mp hnd2 with ⟨hndpre, hndtail, hdisj⟩
  rcases List.nodup_cons.mp hndtail with ⟨hnapost, hndpostmap⟩
  have hfa : (pre ++ a :: post).filter (fun c => c.onDisk)
      = a :: post.filter (fun c => c.onDisk) := by
    rw [List.filter_append,
      List.filter_eq_nil_iff.mpr (fun c hc => by simp [hpre c hc]),
      List.filter_cons]
    simp [ha]
  refine ⟨by rw [heq]; rfl, ?_, ?_⟩
  · -- the compatible list
    have hremoved : (partitionArtifacts (pre ++ a :: post)).removed
        = pre.map Artifact.imtype ++
          (post.filter (droppedAfterRef a.shape)).map Artifact.imtype := by
      rw [heq]
    unfold compatibleTypes
    rw [hremoved, hfa, List.filter_map, List.filter_cons]
    have hpa : (decide (a.shape = a.shape) || decide (a.imtype = "sumwt")) = true := by
      simp
    rw [if_pos hpa, List.filter_filter]
    have key : List.filter
        ((fun t => decide (t ∉ pre.map Artifact.imtype ++
            (post.filter (droppedAfterRef a.shape)).map Artifact.imtype)) ∘
          Artifact.imtype) (pre ++ a :: post)
        = a :: post.filter
            (fun c => (decide (c.shape = a.shape) || decide (c.imtype = "sumwt"))
              && c.onDisk) := by
      rw [List.filter_append]
      have hprenil : List.filter
          ((fun t => decide (t ∉ pre.map Artifact.imtype ++
              (post.filter (droppedAfterRef a.shape)).map Artifact.imtype)) ∘
            Artifact.imtype) pre = [] := by
        refine List.filter_eq_nil_iff.mpr (fun c hc => ?_)
        have : c.imtype ∈ pre.map Artifact.imtype := List.mem_map_of_mem _ hc
        simp [Function.comp, List.mem_append, this]
      rw [hprenil, List.filter_cons]
      have hain : a.imtype ∉ pre.map Artifact.imtype ++
          (post.filter (droppedAfterRef a.shape)).map Artifact.imtype := by
        intro hin
        rcases List.mem_append.mp hin with hin | hin
        · exact hdisj hin (List.mem_cons_self _ _)
        · exact hnapost
            (List.map_subset _ (List.filter_sublist _).subset hin)
      rw [if_pos (by simpa [Function.comp] using hain)]
      refine congrArg (a :: ·) (List.filter_congr (fun c hc => ?_))
      have h1 : c.imtype ∉ pre.map Artifact.imtype := fun hin =>
        hdisj hin (List.mem_cons_of_mem _ (List.mem_map_of_mem _ hc))
      have h2 : c.imtype ∈ (post.filter (droppedAfterRef a.shape)).map Artifact.imtype
          ↔ droppedAfterRef a.shape c = true := by
        constructor
        · intro hm
          rcases List.mem_map.mp hm with ⟨d, hd, hde⟩
          rcases List.mem_filter.mp hd with ⟨hdp, hdrop⟩
          have : d = c := List.inj_on_of_nodup_map hndpostmap hdp hc hde
          exact this ▸ hdrop
        · intro hdrop
          exact List.mem_map_of_mem _ (List.mem_filter.mpr ⟨hc, hdrop⟩)
      have hmem : c.imtype ∈ pre.map Artifact.imtype ++
          (post.filter (droppedAfterRef a.shape)).map Artifact.imtype
          ↔ droppedAfterRef a.shape c = true := by
        rw [List.mem_append]
        simp [h1, h2]
      have step1 : ((fun t => decide (t ∉ pre.map Artifact.imtype ++
          (post.filter (droppedAfterRef a.shape)).map Artifact.imtype)) ∘
            Artifact.imtype) c = !(droppedAfterRef a.shape c) := by
        cases hdrop : droppedAfterRef a.shape c <;>
          simp [Function.comp, hmem, hdrop]
      rw [step1]
      simp only [droppedAfterRef, badAfterRef, decide_not]
      cases c.onDisk <;>
        cases hh1 : decide (c.shape = a.shape) <;>
        cases hh2 : decide (c.imtype = "sumwt") <;> simp
    rw [key]
  · -- diftypes
    have hdif : (partitionArtifacts (pre ++ a :: post)).diftypes
        = (post.filter (badAfterRef a.shape)).map Artifact.imtype := by
      rw [heq]
    rw [hdif, hfa, List.filter_cons]
    have hqa : ¬ ((decide (a.shape ≠ a.shape) && decide (a.imtype ≠ "sumwt")) = true) := by
      simp
    rw [if_neg hqa, List.filter_filter]
    refine congrArg (List.map Artifact.imtype) (List.filter_congr (fun c hc => ?_))
    simp only [badAfterRef]
    rw [Bool.and_comm]

/-- C2 witness: the spec's partition example — reference A, same-shape B,
mismatched C, and sumwt — yields compatible {A, B, sumwt} and incompatible
{C}. -/
theorem C2_partition_witness :
    (([artRefA, artB, artC, artSumwt].map Artifact.imtype).Nodup ∧
     [artRefA, artB, artC, artSumwt].filter (fun c => c.onDisk)
        = artRefA :: [artB, artC, artSumwt]) ∧
    ((partitionArtifacts [artRefA, artB, artC, artSumwt]).meta.map Prod.fst
        = some artRefA.shape ∧
     compatibleTypes [artRefA, artB, artC, artSumwt] =
      (([artRefA, artB, artC, artSumwt].filter (fun c => c.onDisk)).filter
        (fun c => decide (c.shape = artRefA.shape) || decide (c.imtype = "sumwt"))).map
        Artifact.imtype ∧
     (partitionArtifacts [artRefA, artB, artC, artSumwt]).diftypes =
      (([artRefA, artB, artC, artSumwt].filter (fun c => c.onDisk)).filter
        (fun c => decide (c.shape ≠ artRefA.shape) && decide (c.imtype ≠ "sumwt"))).map
        Artifact.imtype) ∧
    compatibleTypes [artRefA, artB, artC, artSumwt] = ["image", "model", "sumwt"] ∧
    (partitionArtifacts [artRefA, artB, artC, artSumwt]).diftypes = ["psf"] :=
  ⟨⟨by decide, by decide⟩,
   C2_partition [artRefA, artB, artC, artSumwt] artRefA [artB, artC, artSumwt]
     (by decide) (by decide),
   by decide, by decide⟩

end ConvertImage

namespace ConvertImage

/-- A numpy ndarray of world-coordinate values: a shape and an index function
(meaningful on index vectors componentwise below the shape). -/
structure NDArray where
  shape : List Nat
  data : List Nat → Int

/-- Line 100: the spherical axes — exactly those whose unit is `rad`. -/
def sphrDims (axisunits : List String) (n : Nat) : List Nat :=
  (List.range n).filter (fun dd => axisunits.getD dd "" = "rad")

/-- Line 109: the cartesian axes — all others (missing or non-angular unit). -/
def cartDims (axisunits : List String) (n : Nat) : List Nat :=
  (List.range n).filter (fun dd => dd ∉ sphrDims axisunits n)

/-- Lines 101-104: world coordinates of spherical axis `sphr[di]` evaluated on
the joint pixel grid over the spherical axes (all other axes pinned at pixel
0), reshaped to the spherical extents.  `world idx dd` abstracts
`IA.coordsys().toworldmany`: the world value of axis `dd` at pixel vector
`idx`. -/
def sphrCoordWorld (world : List Nat → Nat → Int) (ims : List Nat)
    (sphr : List Nat) (di : Nat) : NDArray :=
  ⟨sphr.map (fun dd => ims.getD dd 0),
   fun sidx => world ((List.range ims.length).map
      (fun dd => match sphr.findIdx? (fun x => x = dd) with
        | some j => sidx.getD j 0
        | none => 0)) (sphr.getD di 0)⟩

/-- Lines 110-113: world coordinates of cartesian axis `cart[di]` evaluated on
the joint pixel grid over all cartesian axes (other axes pinned at pixel 0),
reshaped to the cartesian extents. -/
def cartCoordWorld (world : List Nat → Nat → Int) (ims : List Nat)
    (cart : List Nat) (di : Nat) : NDArray :=
  ⟨cart.map (fun dd => ims.getD dd 0),
   fun cidx => world ((List.range ims.length).map
      (fun dd => match cart.findIdx? (fun x => x = dd) with
        | some j => cidx.getD j 0
        | none => 0)) (cart.getD di 0)⟩

/-- Line 115: the basic slice `cs[spi]` with
`spi = tuple(slice(None) if di == dd else slice(1) for di in range(cs.ndim))`:
every axis kept, all but axis `dd` restricted to extent 1 at offset 0. -/
def sliceKeep (dd : Nat) (A : NDArray) : NDArray :=
  ⟨A.shape.mapIdx (fun i n => if i = dd then n else 1), A.data⟩

/-- Line 116: the integer indexing `[0]` — drops the first axis at index 0. -/
def indexZero (A : NDArray) : NDArray :=
  ⟨A.shape.tail, fun idx => A.data (0 :: idx)⟩

/-- Lines 114-116: the coords entry the code stores for cartesian axis
`cart[di]` — `cs[spi][0]`. -/
def cartCoordEntry (world : List Nat → Nat → Int) (ims : List Nat)
    (cart : List Nat) (di : Nat) : NDArray :=
  indexZero (sliceKeep di (cartCoordWorld world ims cart di))

/-- The claim's cartesian resolution: sweep only axis `dd` (all other axes
pinned at pixel 0) into a 1-d vector of that axis's own length. -/
def claimCartCoord (world : List Nat → Nat → Int) (ims : List Nat) (dd : Nat) :
    NDArray :=
  ⟨[ims.getD dd 0],
   fun idx => world ((List.range ims.length).map
      (fun i => if i = dd then idx.getD 0 0 else 0)) dd⟩

/-- First-axis vector of values of an ndarray (its content when 1-d). -/
def NDArray.toVec (A : NDArray) : List Int :=
  (List.range (A.shape.headD 0)).map (fun i => A.data [i])

/-- Example world transform for a (ra, dec, pol, chan) image: pol world values
7, 8, 9 and chan world values 1000, 1100, 1200, 1300. -/
def demoWorld (idx : List Nat) (dd : Nat) : Int :=
  if dd = 2 then 7 + (idx.getD 2 0 : Int)
  else if dd = 3 then 1000 + 100 * (idx.getD 3 0 : Int)
  else (idx.getD dd 0 : Int)

/-- C4: on a 4-axis artifact with units `[rad, rad, '', Hz]` and shape
`(2, 2, 3, 4)` the classification is as claimed (axes 0, 1 spherical, axes
2, 3 cartesian), but the coords entry the code builds for the FIRST cartesian
axis (`pol`, length 3) is `cs[:, 0:1][0]` — a length-1 array holding only the
world value at pol pixel 0 — not the claimed 1-d sweep `[7, 8, 9]`; only the
last cartesian axis (`chan`) receives its full sweep. -/
theorem C4_cartesian_slicing :
    sphrDims ["rad", "rad", "", "Hz"] 4 = [0, 1] ∧
    cartDims ["rad", "rad", "", "Hz"] 4 = [2, 3] ∧
    (sphrCoordWorld demoWorld [2, 2, 3, 4] [0, 1] 0).shape = [2, 2] ∧
    (cartCoordEntry demoWorld [2, 2, 3, 4] [2, 3] 0).shape = [1] ∧
    (claimCartCoord demoWorld [2, 2, 3, 4] 2).shape = [3] ∧
    (cartCoordEntry demoWorld [2, 2, 3, 4] [2, 3] 0).data [0] = 7 ∧
    (claimCartCoord demoWorld [2, 2, 3, 4] 2).toVec = [7, 8, 9] ∧
    (cartCoordEntry demoWorld [2, 2, 3, 4] [2, 3] 1).shape = [4] ∧
    (cartCoordEntry demoWorld [2, 2, 3, 4] [2, 3] 1).toVec = [1000, 1100, 1200, 1300] ∧
    (claimCartCoord demoWorld [2, 2, 3, 4] 3).toVec = [1000, 1100, 1200, 1300] := by
  decide

end ConvertImage

namespace ConvertImage

/-- Lines 164-165: the per-batch coordinate mapping — `dict(meta['coords'])`
copied, then only `chan` rebound to `np.arange(chan_batch) + chan`, the
batch's channel pixel indices. -/
def chunkCoords (coords : List (String × List Int)) (chan chan_batch : Nat) :
    List (String × List Int) :=
  dictSet coords "chan" ((List.range chan_batch).map (fun j => ((chan + j : Nat) : Int)))

/-- The claim's reading of lines 164-165: only `chan` changes, and it is the
reference channel coordinate re-sliced to the batch's range. -/
def claimChunkCoords (coords : List (String × List Int)) (chan chan_batch : Nat) :
    List (String × List Int) :=
  dictSet coords "chan" (((dictGet "chan" coords).getD []).drop chan |>.take chan_batch)

/-- C5 counterexample: with the reference channel coordinate produced by the
Coordinate Resolver on the demo artifact (world frequencies 1000, 1100, 1200,
1300) and the first batch of size 2, the code's `chan` coordinate is the pixel
indices `[0, 1]`, not the re-sliced reference values `[1000, 1100]`. -/
theorem C5_counterexample :
    dictGet "chan"
      (chunkCoords [("chan", (cartCoordEntry demoWorld [2, 2, 3, 4] [2, 3] 1).toVec)] 0 2)
      = some [0, 1] ∧
    dictGet "chan"
      (claimChunkCoords [("chan", (cartCoordEntry demoWorld [2, 2, 3, 4] [2, 3] 1).toVec)] 0 2)
      = some [1000, 1100] ∧
    (some [(0 : Int), 1] ≠ some [(1000 : Int), 1100]) := by
  decide

/-- C5 amended: the per-batch coordinate mapping differs from the reference
coords only at `chan`, which is REPLACED by the batch's channel pixel indices
`chan, chan+1, ..., chan+chan_batch-1` (not a re-slice of the reference
channel coordinate values). -/
theorem C5_chunk_coords (coords : List (String × List Int)) (chan chan_batch : Nat)
    (k : String) (hk : k ≠ "chan") :
    dictGet k (chunkCoords coords chan chan_batch) = dictGet k coords ∧
    dictGet "chan" (chunkCoords coords chan chan_batch)
      = some ((List.range chan_batch).map (fun j => ((chan + j : Nat) : Int))) := by
  constructor
  · rw [chunkCoords, dictGet_dictSet, if_neg (fun h => hk h.symm)]
  · rw [chunkCoords, dictGet_dictSet, if_pos rfl]

/-- C5 witness: the amended statement at the counterexample's concrete
input, for the unchanged coordinate `pol`. -/
theorem C5_chunk_coords_witness :
    ("pol" ≠ "chan") ∧
    (dictGet "pol" (chunkCoords [("pol", [7]), ("chan", [1000, 1100, 1200, 1300])] 0 2)
        = dictGet "pol" [("pol", [7]), ("chan", [1000, 1100, 1200, 1300])] ∧
     dictGet "chan" (chunkCoords [("pol", [7]), ("chan", [1000, 1100, 1200, 1300])] 0 2)
        = some ((List.range 2).map (fun j => ((0 + j : Nat) : Int)))) :=
  ⟨by decide,
   C5_chunk_coords [("pol", [7]), ("chan", [1000, 1100, 1200, 1300])] 0 2 "pol"
     (by decide)⟩

end ConvertImage

namespace ConvertImage

/-- Semantics of xarray `Dataset.transpose(*args)` as used at line 192: the
argument list must name each dataset dimension exactly once (a duplicate or a
missing dimension raises ValueError); every variable's dimensions are then
reordered to follow the argument order restricted to that variable's dims. -/
def datasetTranspose (args dsDims : List String) (varDims : List (List String)) :
    Option (List (List String)) :=
  if args.Nodup ∧ (∀ d ∈ dsDims, d ∈ args) ∧ (∀ d ∈ args, d ∈ dsDims) then
    some (varDims.map (fun v => args.filter (fun d => decide (d ∈ v))))
  else none

/-- Line 192: the transpose argument list —
`xds.image.dims[0], xds.image.dims[1], 'chan', 'pol'`. -/
def transposeArgs (imageDims : List String) : List String :=
  [imageDims.getD 0 "", imageDims.getD 1 "", "chan", "pol"]

/-- Line 192: `if ('pol' in xds.dims): xds = xds.transpose(...)` — the
reorder applied to every variable's dims when a polarization axis exists. -/
def reorderStep (imageDims dsDims : List String) (varDims : List (List String)) :
    Option (List (List String)) :=
  if "pol" ∈ dsDims then datasetTranspose (transposeArgs imageDims) dsDims varDims
  else some varDims

/-- C6 counterexample: a source artifact whose native axis order puts the
channel and polarization axes FIRST (image dims `[chan, pol, d2, d3]`) makes
line 192 call transpose with the duplicated list `[chan, pol, chan, pol]`,
which errors instead of producing the reordered dataset; so the reorder does
not succeed regardless of native axis order. -/
theorem C6_counterexample :
    transposeArgs ["chan", "pol", "d2", "d3"] = ["chan", "pol", "chan", "pol"] ∧
    ¬ (transposeArgs ["chan", "pol", "d2", "d3"]).Nodup ∧
    reorderStep ["chan", "pol", "d2", "d3"] ["chan", "pol", "d2", "d3"]
      [["chan", "pol", "d2", "d3"]] = none := by
  refine ⟨rfl, by decide, by decide⟩

/-- C6 amended: when a polarization axis is present AND the first two dims of
the `image` variable are the two non-channel, non-polarization axes (so the
argument list `[dims[0], dims[1], chan, pol]` names each dataset dimension
exactly once), the transpose succeeds and every variable's dims become the
argument order restricted to that variable; in particular every variable
containing both `chan` and `pol` ends with `..., chan, pol`. -/
theorem C6_reorder (imageDims dsDims : List String) (varDims : List (List String))
    (hnd : (transposeArgs imageDims).Nodup)
    (hds1 : ∀ d ∈ dsDims, d ∈ transposeArgs imageDims)
    (hds2 : ∀ d ∈ transposeArgs imageDims, d ∈ dsDims) :
    reorderStep imageDims dsDims varDims =
      some (varDims.map (fun v => (transposeArgs imageDims).filter
        (fun d => decide (d ∈ v)))) ∧
    ∀ v ∈ varDims, "chan" ∈ v → "pol" ∈ v →
      ∃ front, (transposeArgs imageDims).filter (fun d => decide (d ∈ v))
        = front ++ ["chan", "pol"] := by
  constructor
  · have hpol : "pol" ∈ dsDims := hds2 _ (by simp [transposeArgs])
    rw [reorderStep, if_pos hpol, datasetTranspose, if_pos ⟨hnd, hds1, hds2⟩]
  · intro v hv hchan hpolv
    refine ⟨(transposeArgs imageDims).take 2 |>.filter (fun d => decide (d ∈ v)), ?_⟩
    simp only [transposeArgs, List.filter_cons, List.take, List.filter]
    cases hh0 : decide ((imageDims[0]?).getD "" ∈ v) <;>
      cases hh1 : decide ((imageDims[1]?).getD "" ∈ v) <;> simp [hh0, hh1, hchan, hpolv]

end ConvertImage

namespace ConvertImage

/-- C6 witness: the typical native CASA order (`image` dims
`[d0, d1, pol, chan]`, sumwt dims `[pol, chan]`) satisfies the amended
hypotheses, and transpose reorders to `[d0, d1, chan, pol]`. -/
theorem C6_reorder_witness :
    ((transposeArgs ["d0", "d1", "pol", "chan"]).Nodup ∧
     (∀ d ∈ ["d0", "d1", "pol", "chan"], d ∈ transposeArgs ["d0", "d1", "pol", "chan"]) ∧
     (∀ d ∈ transposeArgs ["d0", "d1", "pol", "chan"], d ∈ ["d0", "d1", "pol", "chan"])) ∧
    (reorderStep ["d0", "d1", "pol", "chan"] ["d0", "d1", "pol", "chan"]
        [["d0", "d1", "pol", "chan"], ["pol", "chan"]] =
      some ([["d0", "d1", "pol", "chan"], ["pol", "chan"]].map
        (fun v => (transposeArgs ["d0", "d1", "pol", "chan"]).filter
          (fun d => decide (d ∈ v)))) ∧
     ∀ v ∈ [["d0", "d1", "pol", "chan"], ["pol", "chan"]], "chan" ∈ v → "pol" ∈ v →
      ∃ front, (transposeArgs ["d0", "d1", "pol", "chan"]).filter (fun d => decide (d ∈ v))
        = front ++ ["chan", "pol"]) ∧
    reorderStep ["d0", "d1", "pol", "chan"] ["d0", "d1", "pol", "chan"]
        [["d0", "d1", "pol", "chan"], ["pol", "chan"]] =
      some [["d0", "d1", "chan", "pol"], ["chan", "pol"]] :=
  ⟨⟨by decide, by decide, by decide⟩,
   C6_reorder ["d0", "d1", "pol", "chan"] ["d0", "d1", "pol", "chan"]
     [["d0", "d1", "pol", "chan"], ["pol", "chan"]] (by decide) (by decide) (by decide),
   by decide⟩

/-- Line 161: the batch starts `range(0, nchan, chan_batch)` (for a positive
step). -/
def chanStarts (nchan chan_batch : Nat) : List Nat :=
  (List.range ((nchan + chan_batch - 1) / chan_batch)).map (fun i => i * chan_batch)

/-- Lines 163 and 171: `pt1/pt2` select the inclusive channel corner range
`chan .. chan+chan_batch-1`; `IA.getchunk` clips the top corner to the image
edge, so the extent actually read is `min (chan+chan_batch) nchan - chan`. -/
def batchExtent (nchan chan_batch chan : Nat) : Nat :=
  min (chan + chan_batch) nchan - chan

/-- Line 165: the per-batch channel coordinate `np.arange(chan_batch) + chan`
— always of length `chan_batch`, whatever the read extent. -/
def batchChanCoord (chan_batch chan : Nat) : List Nat :=
  (List.range chan_batch).map (fun j => chan + j)

/-- Line 189: assembling the per-batch Dataset requires the `chan` coordinate
length to equal the pixel extent along `chan` (xarray raises a
conflicting-sizes error otherwise). -/
def assembleBatch (nchan chan_batch chan : Nat) : Option (List Nat) :=
  if (batchChanCoord chan_batch chan).length = batchExtent nchan chan_batch chan then
    some (batchChanCoord chan_batch chan)
  else none

/-- Lines 161-199: the whole batched loop over the channel axis, returning
each batch's assembled channel coordinate, or `none` as soon as one batch
fails to assemble. -/
def runBatches (nchan chan_batch : Nat) : Option (List (List Nat)) :=
  (chanStarts nchan chan_batch).mapM (assembleBatch nchan chan_batch)

/-- C3: with 5 channels and batch size 2 the loop visits starts 0, 2, 4 and
the clipped read extents are 2, 2, 1 — but the third batch's channel
coordinate is `arange(2)+4 = [4, 5]`, of length 2 and naming the nonexistent
channel 5, so the third Dataset cannot be assembled (conflicting sizes) and
the three writes of extents 2, 2, 1 never happen; the concatenated code
coordinates also differ from the single-batch run `[0..4]`, which does
succeed. -/
theorem C3_ragged_batch :
    chanStarts 5 2 = [0, 2, 4] ∧
    (chanStarts 5 2).map (batchExtent 5 2) = [2, 2, 1] ∧
    (chanStarts 5 2).map (batchChanCoord 2) = [[0, 1], [2, 3], [4, 5]] ∧
    ((chanStarts 5 2).map (batchChanCoord 2)).flatten = [0, 1, 2, 3, 4, 5] ∧
    assembleBatch 5 2 4 = none ∧
    runBatches 5 2 = none ∧
    runBatches 5 5 = some [[0, 1, 2, 3, 4]] := by
  decide

end ConvertImage

namespace ConvertImage

/-- Externally visible effects of `convert_image` on the destination path. -/
inductive Effect where
  | removeOutput
  | storeCreate
  | storeAppend
deriving DecidableEq

/-- Failure modes relevant to the driver model. -/
inductive ConvError where
  | keyError
  | conflictingSizes
deriving DecidableEq

/-- Driver control flow (lines 72-199) reduced to its destination-path effect
trace: unless `nofile`, line 73 removes the output path FIRST
(`os.system("rm -fr " + outfile)`), before any artifact is looked for; then
the artifact scan runs; if it established no reference, line 157 raises
KeyError on `meta['dsize']` before any store write; otherwise the loop writes
once per assembling channel batch (zarr create at `chan == 0`, append
afterwards, lines 194-199), stopping at the first batch that fails to
assemble. -/
def convertTrace (nofile : Bool) (cands : List Artifact) (nchan chan_batch : Nat) :
    List Effect × Option ConvError :=
  let pre : List Effect := if nofile then [] else [.removeOutput]
  match (partitionArtifacts cands).meta with
  | none => (pre, some .keyError)
  | some _ =>
    let batch := if nofile then nchan else chan_batch
    let starts := chanStarts nchan batch
    let ok := starts.takeWhile (fun chan => (assembleBatch nchan batch chan).isSome)
    let writes : List Effect :=
      if nofile then []
      else ok.map (fun chan => if chan = 0 then .storeCreate else .storeAppend)
    (pre ++ writes, if ok.length = starts.length then none else some .conflictingSizes)

/-- A candidate list in which no artifact exists on disk. -/
def noArtifacts : List Artifact :=
  [⟨"image", false, [], []⟩, ⟨"mask", false, [], []⟩, ⟨"sumwt", false, [], []⟩]

/-- C1 counterexample: with no artifact on disk and persistence enabled, the
conversion does fail (KeyError) before any store write, but the pre-existing
destination path has already been destroyed by the `rm -fr` of line 73 — so
the claim that no destination data is created or truncated is false. -/
theorem C1_counterexample :
    (convertTrace false noArtifacts 5 1).2 = some ConvError.keyError ∧
    Effect.storeCreate ∉ (convertTrace false noArtifacts 5 1).1 ∧
    Effect.storeAppend ∉ (convertTrace false noArtifacts 5 1).1 ∧
    Effect.removeOutput ∈ (convertTrace false noArtifacts 5 1).1 := by
  decide

/-- C1 amended: if no artifact of any candidate type exists on disk, the
conversion fails (KeyError at line 157) before any store write — but when
persistence is enabled the pre-existing destination was already removed at
line 73, before artifact discovery; only in `nofile` mode is the destination
left untouched. -/
theorem C1_no_artifacts (nofile : Bool) (cands : List Artifact) (nchan chan_batch : Nat)
    (h : ∀ c ∈ cands, c.onDisk = false) :
    (convertTrace nofile cands nchan chan_batch).2 = some ConvError.keyError ∧
    Effect.storeCreate ∉ (convertTrace nofile cands nchan chan_batch).1 ∧
    Effect.storeAppend ∉ (convertTrace nofile cands nchan chan_batch).1 ∧
    (convertTrace nofile cands nchan chan_batch).1
      = (if nofile then [] else [Effect.removeOutput]) := by
  have hmeta : (partitionArtifacts cands).meta = none := by
    rw [show partitionArtifacts cands = cands.foldl partStep ⟨none, [], []⟩ from rfl,
      foldl_partStep_missing cands _ h]
  unfold convertTrace
  rw [hmeta]
  cases nofile <;> simp

/-- C1 witness: the amended statement at the concrete empty-disk candidate
list with `nofile = false`. -/
theorem C1_no_artifacts_witness :
    (∀ c ∈ noArtifacts, c.onDisk = false) ∧
    ((convertTrace false noArtifacts 5 1).2 = some ConvError.keyError ∧
     Effect.storeCreate ∉ (convertTrace false noArtifacts 5 1).1 ∧
     Effect.storeAppend ∉ (convertTrace false noArtifacts 5 1).1 ∧
     (convertTrace false noArtifacts 5 1).1
       = (if false then [] else [Effect.removeOutput])) :=
  ⟨by decide, C1_no_artifacts false noArtifacts 5 1 (by decide)⟩

end ConvertImage
